import Mathlib

/-!
Shallow embedding of the Connect4 rules engine from
src/game_logic/connect4.py (class Connect4), together with the
score-reset operation of src/app/connect4_gui.py (Connect4_GUI._clear_scores).

Modelling conventions:
- The 6 x 7 numpy integer array _board becomes a total function
  Fin 6 -> Fin 7 -> Nat (0 = empty cell, otherwise a player identifier).
- The two Player objects (identifiers 1 and 2) are modelled by the
  two-element type PlayerId; their mutable win counters become the fields
  wins1 / wins2 of the session state.  current_player stores which of the
  two objects the Python attribute references.
- numpy indexing of a length-7 axis with a Python int is modelled by
  npIndex7: indices in [0,7) are taken as-is, indices in [-7,0) wrap
  (numpy negative indexing), anything else raises IndexError.
- Exceptions raised (InvalidMoveError, PlayerWin, GameDraw, IndexError)
  and the silent-return paths of make_move become the MoveOutcome sum type;
  make_move returns the post-call state paired with the outcome.
- The random starting-player draw of choose_starting_player
  (np.random.choice over the two players) is modelled by passing the
  drawn player as an explicit parameter.
-/

/-- Board is the 6-row by 7-column grid _board; a cell holds 0 (empty) or a
player identifier (1 or 2 in reachable states). -/
abbrev Board := Fin 6 → Fin 7 → Nat

/-- Model of np.zeros((6, 7)): the all-empty board. -/
def emptyBoard : Board := fun _ _ => 0

/-- Model of the single numpy cell assignment board[r][c] = v. -/
def setCell (b : Board) (r : Fin 6) (c : Fin 7) (v : Nat) : Board :=
  fun r' c' => if r' = r ∧ c' = c then v else b r' c'

/-- The two Player objects created in Connect4.__init__ (identifiers 1, 2). -/
inductive PlayerId | one | two
deriving DecidableEq

/-- Model of Player.identifier for the two player objects. -/
def ident : PlayerId → Nat
  | PlayerId.one => 1
  | PlayerId.two => 2

/-- Model of Connect4._switch_player: Player_one if the current player is
Player_two, else Player_two. -/
def switch_player (p : PlayerId) : PlayerId :=
  if p = PlayerId.two then PlayerId.one else PlayerId.two

/-- The mutable state of one Connect4 session: the board, _num_of_moves,
game_state (0 in progress, 1 finished), the two win counters and the
current player reference. -/
structure Game where
  board : Board
  num_of_moves : Nat
  game_state : Nat
  wins1 : Nat
  wins2 : Nat
  current_player : PlayerId

/-- Model of Connect4.__init__ with the random starting-player draw passed
explicitly: empty board, zero moves, game in progress, zero wins. -/
def initGame (starter : PlayerId) : Game :=
  { board := emptyBoard, num_of_moves := 0, game_state := 0,
    wins1 := 0, wins2 := 0, current_player := starter }

/-- Model of Connect4.clear_board: zero the board and the move counter;
game_state, the win counters and current_player are not touched. -/
def clear_board (s : Game) : Game :=
  { s with board := emptyBoard, num_of_moves := 0 }

/-- Model of Connect4.rematch with the random draw passed explicitly:
set game_state to 0, clear the board, re-select the current player. -/
def rematch (s : Game) (starter : PlayerId) : Game :=
  { clear_board { s with game_state := 0 } with current_player := starter }

/-- Model of Connect4_GUI._clear_scores: clear_board(), then game_state = 0,
then zero both win counters.  The current player is not touched. -/
def clear_scores (s : Game) : Game :=
  { clear_board s with game_state := 0, wins1 := 0, wins2 := 0 }

/-- Model of numpy indexing of a length-7 axis (board rows have 7 entries)
with an arbitrary Python int: in-range indices are kept, indices in [-7,0)
wrap around, anything else raises IndexError (modelled by Option.none). -/
def npIndex7 (column : Int) : Option (Fin 7) :=
  if h : 0 ≤ column ∧ column < 7 then some ⟨column.toNat, by omega⟩
  else if h2 : -7 ≤ column ∧ column < 0 then some ⟨(column + 7).toNat, by omega⟩
  else none

/-- The row iteration order range(5, -1, -1) of Connect4._get_next_row. -/
def rowsTopDown : List (Fin 6) := [5, 4, 3, 2, 1, 0]

/-- Model of Connect4._get_next_row: scan rows 5,4,3,2,1,0 and return the
first row whose cell in the given column is empty; none when the column is
full (the Python function then falls through and returns None). -/
def get_next_row (b : Board) (c : Fin 7) : Option (Fin 6) :=
  rowsTopDown.find? (fun r => b r c == 0)

/-- Model of Connect4._is_winning_move: scan the whole board for four
consecutive cells equal to the given identifier, checking the horizontal,
vertical and two diagonal window families in this order, returning true at
the first match.  The ranges are exactly those of the Python loops;
a bottom-left-to-top-right start row in range(3, 6) appears here as
row.val + 3 with row ranging over Fin 3. -/
def is_winning_move (b : Board) (pid : Nat) : Bool :=
  ((List.finRange 6).any fun row => (List.finRange 4).any fun col =>
    (List.finRange 4).all fun i =>
      b row ⟨col.val + i.val, by have hc := col.isLt; have hi := i.isLt; omega⟩ == pid)
  ||
  ((List.finRange 3).any fun row => (List.finRange 7).any fun col =>
    (List.finRange 4).all fun i =>
      b ⟨row.val + i.val, by have hr := row.isLt; have hi := i.isLt; omega⟩ col == pid)
  ||
  ((List.finRange 3).any fun row => (List.finRange 4).any fun col =>
    (List.finRange 4).all fun i =>
      b ⟨row.val + 3 - i.val, by have hr := row.isLt; have hi := i.isLt; omega⟩
        ⟨col.val + i.val, by have hc := col.isLt; have hi := i.isLt; omega⟩ == pid)
  ||
  ((List.finRange 3).any fun row => (List.finRange 4).any fun col =>
    (List.finRange 4).all fun i =>
      b ⟨row.val + i.val, by have hr := row.isLt; have hi := i.isLt; omega⟩
        ⟨col.val + i.val, by have hc := col.isLt; have hi := i.isLt; omega⟩ == pid)

/-- Every way a call to Connect4.make_move can end: silent early return when
the game is already finished, ordinary success (returns None after switching
players), the PlayerWin / GameDraw / InvalidMoveError exceptions, numpy
IndexError for an index outside [-7,7), and the unreachable TypeError path
where _get_next_row returned None for a non-full column. -/
inductive MoveOutcome
  | silent
  | ok
  | playerWin (identifier : Nat)
  | gameDraw
  | invalidMove (column : Int)
  | indexError
  | internalError
deriving DecidableEq

/-- Model of Connect4.make_move, line for line: early return when
game_state is not 0; _is_valid_move reads board[0][column] (numpy indexing,
so the column may wrap or raise IndexError) and raises
InvalidMoveError(column) when that cell is occupied; otherwise the token is
written at _get_next_row's row, the move counter is incremented, and the
win / board-full / switch-player evaluation runs in that order. -/
def make_move (s : Game) (column : Int) : Game × MoveOutcome :=
  if s.game_state ≠ 0 then (s, MoveOutcome.silent)
  else
    match npIndex7 column with
    | none => (s, MoveOutcome.indexError)
    | some c =>
      if s.board 0 c = 0 then
        match get_next_row s.board c with
        | none => (s, MoveOutcome.internalError)
        | some r =>
          let board1 := setCell s.board r c (ident s.current_player)
          let moves1 := s.num_of_moves + 1
          if is_winning_move board1 (ident s.current_player) then
            ({ s with
                board := board1
                num_of_moves := moves1
                wins1 := if s.current_player = PlayerId.one then s.wins1 + 1 else s.wins1
                wins2 := if s.current_player = PlayerId.two then s.wins2 + 1 else s.wins2
                game_state := 1 },
              MoveOutcome.playerWin (ident s.current_player))
          else if moves1 = 6 * 7 then
            ({ s with board := board1, num_of_moves := moves1, game_state := 1 },
              MoveOutcome.gameDraw)
          else
            ({ s with
                board := board1
                num_of_moves := moves1
                current_player := switch_player s.current_player },
              MoveOutcome.ok)
      else (s, MoveOutcome.invalidMove column)

/-- Number of non-empty cells on the board (the quantity the spec's move
counter invariant speaks about). -/
def countTokens (b : Board) : Nat :=
  ∑ r : Fin 6, ∑ c : Fin 7, if b r c ≠ 0 then 1 else 0

/-- Horizontal mirror of the board: column c is exchanged with column 6 - c
in every row. -/
def mirrorBoard (b : Board) : Board :=
  fun r c => b r ⟨6 - c.val, by omega⟩

/-- Session states reachable from construction through any sequence of
make_move, rematch and clear_board calls (random draws quantified). -/
inductive Reachable : Game → Prop
  | init (starter : PlayerId) : Reachable (initGame starter)
  | move (s : Game) (column : Int) : Reachable s → Reachable (make_move s column).1
  | rematch_step (s : Game) (starter : PlayerId) : Reachable s → Reachable (rematch s starter)
  | clear_step (s : Game) : Reachable s → Reachable (clear_board s)

/-- Spec-side description of a horizontal win: four cells (r, c..c+3) owned
by the player, for a row in [0,6) and a start column in [0,3]. -/
def horizontalWin (b : Board) (pid : Nat) : Prop :=
  ∃ row : Fin 6, ∃ col : Fin 4, ∀ i : Fin 4,
    b row ⟨col.val + i.val, by have hc := col.isLt; have hi := i.isLt; omega⟩ = pid

/-- Spec-side description of a vertical win: four cells (r..r+3, c) owned by
the player, for a start row in [0,2] and a column in [0,7). -/
def verticalWin (b : Board) (pid : Nat) : Prop :=
  ∃ row : Fin 3, ∃ col : Fin 7, ∀ i : Fin 4,
    b ⟨row.val + i.val, by have hr := row.isLt; have hi := i.isLt; omega⟩ col = pid

/-- Spec-side description of a bottom-left-to-top-right diagonal win: cells
(r - i, c + i) for i in 0..3, start row r in [3,5] (encoded r = row.val + 3),
start column in [0,3]. -/
def diagUpWin (b : Board) (pid : Nat) : Prop :=
  ∃ row : Fin 3, ∃ col : Fin 4, ∀ i : Fin 4,
    b ⟨row.val + 3 - i.val, by have hr := row.isLt; have hi := i.isLt; omega⟩
      ⟨col.val + i.val, by have hc := col.isLt; have hi := i.isLt; omega⟩ = pid

/-- Spec-side description of a top-left-to-bottom-right diagonal win: cells
(r + i, c + i) for i in 0..3, start row in [0,2], start column in [0,3]. -/
def diagDownWin (b : Board) (pid : Nat) : Prop :=
  ∃ row : Fin 3, ∃ col : Fin 4, ∀ i : Fin 4,
    b ⟨row.val + i.val, by have hr := row.isLt; have hi := i.isLt; omega⟩
      ⟨col.val + i.val, by have hc := col.isLt; have hi := i.isLt; omega⟩ = pid

/-! Shared lemmas about the embedded operations. -/

/-- Board lookups agree on index pairs with equal underlying values. -/
lemma board_congr (b : Board) {r r' : Fin 6} {c c' : Fin 7}
    (hr : r.val = r'.val) (hc : c.val = c'.val) : b r c = b r' c' := by
  rw [Fin.ext hr, Fin.ext hc]

/-- Mirroring the board twice is the identity. -/
lemma mirror_mirror (b : Board) : mirrorBoard (mirrorBoard b) = b := by
  funext r c
  unfold mirrorBoard
  exact board_congr b rfl (by have := c.isLt; show 6 - (6 - c.val) = c.val; omega)

/-- A Fin-valued column, read back through numpy indexing, is itself. -/
lemma npIndex7_ofFin (c : Fin 7) : npIndex7 (c.val : Int) = some c := by
  have hlt := c.isLt
  have h : 0 ≤ (c.val : Int) ∧ (c.val : Int) < 7 := by omega
  unfold npIndex7
  rw [dif_pos h]
  exact congrArg some (Fin.ext (show ((c.val : Int)).toNat = c.val by omega))

/-- Unfolding of the row scan range(5, -1, -1) of _get_next_row into a
chain of emptiness tests from the bottom row upward. -/
lemma get_next_row_eq (b : Board) (c : Fin 7) :
    get_next_row b c =
      if b 5 c = 0 then some 5
      else if b 4 c = 0 then some 4
      else if b 3 c = 0 then some 3
      else if b 2 c = 0 then some 2
      else if b 1 c = 0 then some 1
      else if b 0 c = 0 then some 0
      else none := by
  unfold get_next_row rowsTopDown
  by_cases h5 : b 5 c = 0
  · rw [List.find?_cons_of_pos _ (by simpa using h5), if_pos h5]
  · rw [List.find?_cons_of_neg _ (by simpa using h5), if_neg h5]
    by_cases h4 : b 4 c = 0
    · rw [List.find?_cons_of_pos _ (by simpa using h4), if_pos h4]
    · rw [List.find?_cons_of_neg _ (by simpa using h4), if_neg h4]
      by_cases h3 : b 3 c = 0
      · rw [List.find?_cons_of_pos _ (by simpa using h3), if_pos h3]
      · rw [List.find?_cons_of_neg _ (by simpa using h3), if_neg h3]
        by_cases h2 : b 2 c = 0
        · rw [List.find?_cons_of_pos _ (by simpa using h2), if_pos h2]
        · rw [List.find?_cons_of_neg _ (by simpa using h2), if_neg h2]
          by_cases h1 : b 1 c = 0
          · rw [List.find?_cons_of_pos _ (by simpa using h1), if_pos h1]
          · rw [List.find?_cons_of_neg _ (by simpa using h1), if_neg h1]
            by_cases h0 : b 0 c = 0
            · rw [List.find?_cons_of_pos _ (by simpa using h0), if_pos h0]
            · rw [List.find?_cons_of_neg _ (by simpa using h0), if_neg h0]
              rfl

/-- The row returned by _get_next_row holds an empty cell. -/
lemma get_next_row_empty (b : Board) (c : Fin 7) (r : Fin 6)
    (h : get_next_row b c = some r) : b r c = 0 := by
  rw [get_next_row_eq] at h
  split_ifs at h with h5 h4 h3 h2 h1 h0 <;> simp_all

/-- Every row strictly below the returned row (larger index) is occupied:
the returned row is the largest empty row index in the column. -/
lemma get_next_row_above (b : Board) (c : Fin 7) (r : Fin 6)
    (h : get_next_row b c = some r) :
    ∀ r' : Fin 6, r.val < r'.val → b r' c ≠ 0 := by
  rw [get_next_row_eq] at h
  intro r' hlt
  split_ifs at h with h5 h4 h3 h2 h1 h0 <;>
  first
    | exact Option.noConfusion h
    | (injection h with h'
       subst h'
       fin_cases r' <;> first | exact absurd hlt (by decide) | assumption)

/-- When the top cell of a column is empty the row scan succeeds. -/
lemma get_next_row_of_top_empty (b : Board) (c : Fin 7)
    (h : b 0 c = 0) : ∃ r, get_next_row b c = some r := by
  rw [get_next_row_eq]
  split_ifs with h5 h4 h3 h2 h1 <;> exact ⟨_, rfl⟩

/-- A finished game makes make_move return immediately with no mutation. -/
lemma make_move_finished (s : Game) (column : Int) (h : s.game_state ≠ 0) :
    make_move s column = (s, MoveOutcome.silent) := by
  unfold make_move
  rw [if_pos h]

/-- A column outside numpy range raises IndexError with no mutation. -/
lemma make_move_oob (s : Game) (column : Int) (h0 : s.game_state = 0)
    (hnp : npIndex7 column = none) :
    make_move s column = (s, MoveOutcome.indexError) := by
  unfold make_move
  rw [if_neg (by simp [h0]), hnp]

/-- A column whose top cell is occupied raises InvalidMoveError carrying the
original column argument, with no mutation. -/
lemma make_move_full (s : Game) (column : Int) (c : Fin 7)
    (h0 : s.game_state = 0) (hnp : npIndex7 column = some c)
    (hv : s.board 0 c ≠ 0) :
    make_move s column = (s, MoveOutcome.invalidMove column) := by
  unfold make_move
  rw [if_neg (by simp [h0]), hnp]
  simp only [if_neg hv]

/-- Winning branch of make_move: the token is placed, the move counter is
incremented, the mover's win counter is incremented, the game finishes, and
PlayerWin carries the mover's identifier; current_player is not advanced. -/
lemma make_move_win_eq (s : Game) (column : Int) (c : Fin 7) (r : Fin 6)
    (h0 : s.game_state = 0) (hnp : npIndex7 column = some c)
    (hv : s.board 0 c = 0) (hr : get_next_row s.board c = some r)
    (hw : is_winning_move (setCell s.board r c (ident s.current_player))
            (ident s.current_player) = true) :
    make_move s column =
      ({ s with
          board := setCell s.board r c (ident s.current_player)
          num_of_moves := s.num_of_moves + 1
          wins1 := if s.current_player = PlayerId.one then s.wins1 + 1 else s.wins1
          wins2 := if s.current_player = PlayerId.two then s.wins2 + 1 else s.wins2
          game_state := 1 },
        MoveOutcome.playerWin (ident s.current_player)) := by
  unfold make_move
  rw [if_neg (by simp [h0]), hnp]
  simp only [if_pos hv, hr, hw, if_true]

/-- Draw branch of make_move: no win and the incremented counter reaches
6*7 = 42, so the game finishes with GameDraw; neither win counter changes
and current_player is not advanced. -/
lemma make_move_draw_eq (s : Game) (column : Int) (c : Fin 7) (r : Fin 6)
    (h0 : s.game_state = 0) (hnp : npIndex7 column = some c)
    (hv : s.board 0 c = 0) (hr : get_next_row s.board c = some r)
    (hw : is_winning_move (setCell s.board r c (ident s.current_player))
            (ident s.current_player) = false)
    (hd : s.num_of_moves + 1 = 6 * 7) :
    make_move s column =
      ({ s with
          board := setCell s.board r c (ident s.current_player)
          num_of_moves := s.num_of_moves + 1
          game_state := 1 },
        MoveOutcome.gameDraw) := by
  unfold make_move
  rw [if_neg (by simp [h0]), hnp]
  simp only [if_pos hv, hr, hw, if_pos hd, Bool.false_eq_true, if_false]

/-- Ordinary branch of make_move: no win, board not full, so the turn passes
to the other player and nothing else changes besides board and counter. -/
lemma make_move_ok_eq (s : Game) (column : Int) (c : Fin 7) (r : Fin 6)
    (h0 : s.game_state = 0) (hnp : npIndex7 column = some c)
    (hv : s.board 0 c = 0) (hr : get_next_row s.board c = some r)
    (hw : is_winning_move (setCell s.board r c (ident s.current_player))
            (ident s.current_player) = false)
    (hd : s.num_of_moves + 1 ≠ 6 * 7) :
    make_move s column =
      ({ s with
          board := setCell s.board r c (ident s.current_player)
          num_of_moves := s.num_of_moves + 1
          current_player := switch_player s.current_player },
        MoveOutcome.ok) := by
  unfold make_move
  rw [if_neg (by simp [h0]), hnp]
  simp only [if_pos hv, hr, hw, if_neg hd, Bool.false_eq_true, if_false]

/-- The token count of any board is at most 42 = 6 * 7. -/
lemma countTokens_le (b : Board) : countTokens b ≤ 42 := by
  unfold countTokens
  have h1 : ∀ r : Fin 6, (∑ c : Fin 7, if b r c ≠ 0 then 1 else 0) ≤ 7 := by
    intro r
    calc (∑ c : Fin 7, if b r c ≠ 0 then 1 else 0)
        ≤ ∑ _c : Fin 7, 1 := Finset.sum_le_sum (fun c _ => by split <;> omega)
      _ = 7 := by simp
  calc (∑ r : Fin 6, ∑ c : Fin 7, if b r c ≠ 0 then 1 else 0)
      ≤ ∑ _r : Fin 6, 7 := Finset.sum_le_sum (fun r _ => h1 r)
    _ = 42 := by simp

/-- The empty board has no tokens. -/
lemma countTokens_empty : countTokens emptyBoard = 0 := by
  simp [countTokens, emptyBoard]

/-- Writing a non-zero value into an empty cell raises the token count by
exactly one. -/
lemma countTokens_setCell (b : Board) (r : Fin 6) (c : Fin 7) (v : Nat)
    (h0 : b r c = 0) (hv : v ≠ 0) :
    countTokens (setCell b r c v) = countTokens b + 1 := by
  unfold countTokens
  have hrow : ∀ r' : Fin 6,
      (∑ c' : Fin 7, if setCell b r c v r' c' ≠ 0 then 1 else 0)
        = (∑ c' : Fin 7, if b r' c' ≠ 0 then 1 else 0) + (if r' = r then 1 else 0) := by
    intro r'
    by_cases hr : r' = r
    · rw [hr, if_pos rfl]
      have hL := (Finset.add_sum_erase Finset.univ
        (fun c' : Fin 7 => if setCell b r c v r c' ≠ 0 then 1 else 0)
        (Finset.mem_univ c)).symm
      have hR := (Finset.add_sum_erase Finset.univ
        (fun c' : Fin 7 => if b r c' ≠ 0 then 1 else 0)
        (Finset.mem_univ c)).symm
      rw [hL, hR]
      have hcell : setCell b r c v r c = v := by simp [setCell]
      have htail : (∑ c' ∈ Finset.univ.erase c, if setCell b r c v r c' ≠ 0 then 1 else 0)
          = ∑ c' ∈ Finset.univ.erase c, if b r c' ≠ 0 then 1 else 0 :=
        Finset.sum_congr rfl (fun c' hc' => by
          have hne : c' ≠ c := Finset.ne_of_mem_erase hc'
          simp [setCell, hne])
      rw [hcell, htail, h0]
      simp [hv]
      omega
    · rw [if_neg hr]
      have hsame : ∀ c' : Fin 7, setCell b r c v r' c' = b r' c' := fun c' => by
        simp [setCell, hr]
      simp only [hsame]
      omega
  calc (∑ r' : Fin 6, ∑ c' : Fin 7, if setCell b r c v r' c' ≠ 0 then 1 else 0)
      = ∑ r' : Fin 6, ((∑ c' : Fin 7, if b r' c' ≠ 0 then 1 else 0) + (if r' = r then 1 else 0)) :=
        Finset.sum_congr rfl (fun r' _ => hrow r')
    _ = (∑ r' : Fin 6, ∑ c' : Fin 7, if b r' c' ≠ 0 then 1 else 0)
        + ∑ r' : Fin 6, (if r' = r then 1 else 0) := Finset.sum_add_distrib
    _ = (∑ r' : Fin 6, ∑ c' : Fin 7, if b r' c' ≠ 0 then 1 else 0) + 1 := by
        rw [Finset.sum_ite_eq' Finset.univ r (fun _ => 1), if_pos (Finset.mem_univ r)]

/-- Characterization of the _is_winning_move scan: it reports true exactly
when one of the four window families contains four cells of the player,
with the exact loop ranges of the source. -/
lemma win_char (b : Board) (pid : Nat) :
    is_winning_move b pid = true ↔
      horizontalWin b pid ∨ verticalWin b pid ∨ diagUpWin b pid ∨ diagDownWin b pid := by
  unfold is_winning_move horizontalWin verticalWin diagUpWin diagDownWin
  simp [List.any_eq_true, List.all_eq_true, List.mem_finRange, beq_iff_eq, or_assoc]

/-- A horizontal four-in-a-row survives horizontal mirroring. -/
lemma horizontalWin_mirror (b : Board) (pid : Nat) (h : horizontalWin b pid) :
    horizontalWin (mirrorBoard b) pid := by
  obtain ⟨row, col, hall⟩ := h
  have hc := col.isLt
  refine ⟨row, ⟨3 - col.val, by omega⟩, fun i => ?_⟩
  have hi := i.isLt
  have h2 := hall ⟨3 - i.val, by omega⟩
  unfold mirrorBoard
  rw [← h2]
  exact board_congr b rfl (show 6 - (3 - col.val + i.val) = col.val + (3 - i.val) by omega)

/-- A vertical four-in-a-row survives horizontal mirroring. -/
lemma verticalWin_mirror (b : Board) (pid : Nat) (h : verticalWin b pid) :
    verticalWin (mirrorBoard b) pid := by
  obtain ⟨row, col, hall⟩ := h
  have hc := col.isLt
  refine ⟨row, ⟨6 - col.val, by omega⟩, fun i => ?_⟩
  have h2 := hall i
  unfold mirrorBoard
  rw [← h2]
  exact board_congr b rfl (show 6 - (6 - col.val) = col.val by omega)

/-- A bottom-left-to-top-right diagonal mirrors to a top-left-to-bottom-right
diagonal. -/
lemma diagUpWin_mirror (b : Board) (pid : Nat) (h : diagUpWin b pid) :
    diagDownWin (mirrorBoard b) pid := by
  obtain ⟨row, col, hall⟩ := h
  have hc := col.isLt
  refine ⟨row, ⟨3 - col.val, by omega⟩, fun i => ?_⟩
  have hi := i.isLt
  have h2 := hall ⟨3 - i.val, by omega⟩
  unfold mirrorBoard
  rw [← h2]
  exact board_congr b
    (show row.val + i.val = row.val + 3 - (3 - i.val) by omega)
    (show 6 - (3 - col.val + i.val) = col.val + (3 - i.val) by omega)

/-- A top-left-to-bottom-right diagonal mirrors to a bottom-left-to-top-right
diagonal. -/
lemma diagDownWin_mirror (b : Board) (pid : Nat) (h : diagDownWin b pid) :
    diagUpWin (mirrorBoard b) pid := by
  obtain ⟨row, col, hall⟩ := h
  have hc := col.isLt
  refine ⟨row, ⟨3 - col.val, by omega⟩, fun i => ?_⟩
  have hi := i.isLt
  have h2 := hall ⟨3 - i.val, by omega⟩
  unfold mirrorBoard
  rw [← h2]
  exact board_congr b
    (show row.val + 3 - i.val = row.val + (3 - i.val) by omega)
    (show 6 - (3 - col.val + i.val) = col.val + (3 - i.val) by omega)

/-- Mirroring never destroys a detected win. -/
lemma is_winning_move_mirror_mono (b : Board) (pid : Nat)
    (h : is_winning_move b pid = true) :
    is_winning_move (mirrorBoard b) pid = true := by
  rcases (win_char b pid).mp h with h1 | h1 | h1 | h1
  · exact (win_char _ _).mpr (Or.inl (horizontalWin_mirror b pid h1))
  · exact (win_char _ _).mpr (Or.inr (Or.inl (verticalWin_mirror b pid h1)))
  · exact (win_char _ _).mpr (Or.inr (Or.inr (Or.inr (diagUpWin_mirror b pid h1))))
  · exact (win_char _ _).mpr (Or.inr (Or.inr (Or.inl (diagDownWin_mirror b pid h1))))

/-- Player identifiers are 1 and 2, never the empty-cell marker 0. -/
lemma ident_ne_zero (p : PlayerId) : ident p ≠ 0 := by
  cases p <;> simp [ident]

/-- One make_move call preserves the counter-equals-token-count invariant. -/
lemma moves_eq_count_step (s : Game) (column : Int)
    (h : s.num_of_moves = countTokens s.board) :
    (make_move s column).1.num_of_moves = countTokens (make_move s column).1.board := by
  by_cases hg : s.game_state ≠ 0
  · rw [make_move_finished s column hg]
    exact h
  · push_neg at hg
    cases hnp : npIndex7 column with
    | none =>
      rw [make_move_oob s column hg hnp]
      exact h
    | some c =>
      by_cases hv : s.board 0 c = 0
      · obtain ⟨r, hr⟩ := get_next_row_of_top_empty s.board c hv
        have hrc : s.board r c = 0 := get_next_row_empty s.board c r hr
        have hcnt := countTokens_setCell s.board r c (ident s.current_player) hrc
          (ident_ne_zero s.current_player)
        cases hw : is_winning_move (setCell s.board r c (ident s.current_player))
            (ident s.current_player) with
        | true =>
          rw [make_move_win_eq s column c r hg hnp hv hr hw]
          show s.num_of_moves + 1 = countTokens (setCell s.board r c (ident s.current_player))
          rw [hcnt, h]
        | false =>
          by_cases hd : s.num_of_moves + 1 = 6 * 7
          · rw [make_move_draw_eq s column c r hg hnp hv hr hw hd]
            show s.num_of_moves + 1 = countTokens (setCell s.board r c (ident s.current_player))
            rw [hcnt, h]
          · rw [make_move_ok_eq s column c r hg hnp hv hr hw hd]
            show s.num_of_moves + 1 = countTokens (setCell s.board r c (ident s.current_player))
            rw [hcnt, h]
      · rw [make_move_full s column c hg hnp hv]
        exact h

/-! Claim theorems. -/

/-- C1: the spec demands that every column outside [0,7) fail with
InvalidMove and mutate nothing, but make_move has no range check: on a fresh
in-progress game, make_move(-1) wraps to column 6 (numpy negative indexing),
places the current player's token at row 5 column 6, increments the move
counter and returns normally; make_move(7) raises IndexError, not
InvalidMoveError.  This theorem evaluates the embedded code at those
failing inputs. -/
theorem claim_C1_eval :
    (make_move (initGame PlayerId.one) (-1)).2 = MoveOutcome.ok ∧
    (make_move (initGame PlayerId.one) (-1)).1.num_of_moves = 1 ∧
    (make_move (initGame PlayerId.one) (-1)).1.board 5 6 = ident PlayerId.one ∧
    (make_move (initGame PlayerId.one) 7).2 = MoveOutcome.indexError := by
  decide

/-- C2: on an in-progress game, for a column in [0,7) whose top cell is
empty (exactly the condition under which make_move succeeds), the move
writes the current player's identifier into the cell at the largest row
index holding Empty in that column (bottom-up scan, first empty cell),
leaves every other cell unchanged, and increments the move counter by 1. -/
theorem claim_C2 (s : Game) (c : Fin 7)
    (h0 : s.game_state = 0) (hv : s.board 0 c = 0) :
    ∃ r : Fin 6,
      s.board r c = 0 ∧
      (∀ r' : Fin 6, r.val < r'.val → s.board r' c ≠ 0) ∧
      (make_move s (c.val : Int)).1.board r c = ident s.current_player ∧
      (∀ r' : Fin 6, ∀ c' : Fin 7, ¬(r' = r ∧ c' = c) →
        (make_move s (c.val : Int)).1.board r' c' = s.board r' c') ∧
      (make_move s (c.val : Int)).1.num_of_moves = s.num_of_moves + 1 := by
  obtain ⟨r, hr⟩ := get_next_row_of_top_empty s.board c hv
  have hb : (make_move s (c.val : Int)).1.board
        = setCell s.board r c (ident s.current_player) ∧
      (make_move s (c.val : Int)).1.num_of_moves = s.num_of_moves + 1 := by
    cases hw : is_winning_move (setCell s.board r c (ident s.current_player))
        (ident s.current_player) with
    | true =>
      rw [make_move_win_eq s _ c r h0 (npIndex7_ofFin c) hv hr hw]
      exact ⟨rfl, rfl⟩
    | false =>
      by_cases hd : s.num_of_moves + 1 = 6 * 7
      · rw [make_move_draw_eq s _ c r h0 (npIndex7_ofFin c) hv hr hw hd]
        exact ⟨rfl, rfl⟩
      · rw [make_move_ok_eq s _ c r h0 (npIndex7_ofFin c) hv hr hw hd]
        exact ⟨rfl, rfl⟩
  refine ⟨r, get_next_row_empty s.board c r hr, get_next_row_above s.board c r hr, ?_, ?_, hb.2⟩
  · rw [hb.1]
    simp [setCell]
  · intro r' c' hne
    rw [hb.1]
    simp only [setCell, if_neg hne]

/-- C2 witness: a first move in column 3 of a fresh game lands in row 5. -/
theorem claim_C2_witness :
    ∃ r : Fin 6,
      (initGame PlayerId.one).board r 3 = 0 ∧
      (∀ r' : Fin 6, r.val < r'.val → (initGame PlayerId.one).board r' 3 ≠ 0) ∧
      (make_move (initGame PlayerId.one) (((3 : Fin 7)).val : Int)).1.board r 3
        = ident (initGame PlayerId.one).current_player ∧
      (∀ r' : Fin 6, ∀ c' : Fin 7, ¬(r' = r ∧ c' = (3 : Fin 7)) →
        (make_move (initGame PlayerId.one) (((3 : Fin 7)).val : Int)).1.board r' c'
          = (initGame PlayerId.one).board r' c') ∧
      (make_move (initGame PlayerId.one) (((3 : Fin 7)).val : Int)).1.num_of_moves
        = (initGame PlayerId.one).num_of_moves + 1 :=
  claim_C2 (initGame PlayerId.one) 3 rfl rfl

/-- C3: after a successful placement, make_move evaluates win first (counter
for the mover incremented, game finished, PlayerWin with the mover's
identifier, current player not advanced), then board-full at 42 = 6*7
(finished, GameDraw, current player not advanced), and only otherwise
advances the current player and signals nothing; the win branch is taken
even when the board also becomes full. -/
theorem claim_C3 (s : Game) (c : Fin 7) (r : Fin 6)
    (h0 : s.game_state = 0) (hv : s.board 0 c = 0)
    (hr : get_next_row s.board c = some r) :
    (is_winning_move (setCell s.board r c (ident s.current_player))
        (ident s.current_player) = true →
      make_move s (c.val : Int) =
        ({ s with
            board := setCell s.board r c (ident s.current_player)
            num_of_moves := s.num_of_moves + 1
            wins1 := if s.current_player = PlayerId.one then s.wins1 + 1 else s.wins1
            wins2 := if s.current_player = PlayerId.two then s.wins2 + 1 else s.wins2
            game_state := 1 },
          MoveOutcome.playerWin (ident s.current_player))) ∧
    (is_winning_move (setCell s.board r c (ident s.current_player))
        (ident s.current_player) = false → s.num_of_moves + 1 = 6 * 7 →
      make_move s (c.val : Int) =
        ({ s with
            board := setCell s.board r c (ident s.current_player)
            num_of_moves := s.num_of_moves + 1
            game_state := 1 },
          MoveOutcome.gameDraw)) ∧
    (is_winning_move (setCell s.board r c (ident s.current_player))
        (ident s.current_player) = false → s.num_of_moves + 1 ≠ 6 * 7 →
      make_move s (c.val : Int) =
        ({ s with
            board := setCell s.board r c (ident s.current_player)
            num_of_moves := s.num_of_moves + 1
            current_player := switch_player s.current_player },
          MoveOutcome.ok)) :=
  ⟨fun hw => make_move_win_eq s _ c r h0 (npIndex7_ofFin c) hv hr hw,
   fun hw hd => make_move_draw_eq s _ c r h0 (npIndex7_ofFin c) hv hr hw hd,
   fun hw hd => make_move_ok_eq s _ c r h0 (npIndex7_ofFin c) hv hr hw hd⟩

/-- Mid-game position: player 1 owns rows 5,4,3 of column 0, player 2 owns
rows 5,4,3 of column 1, player 1 to move. -/
def winSetup : Game :=
  { board := setCell (setCell (setCell (setCell (setCell (setCell
        emptyBoard 5 0 1) 5 1 2) 4 0 1) 4 1 2) 3 0 1) 3 1 2
    num_of_moves := 6
    game_state := 0
    wins1 := 0
    wins2 := 0
    current_player := PlayerId.one }

/-- C3 witness: in winSetup, dropping into column 0 lands at row 2,
completes a vertical four and resolves through the win branch. -/
theorem claim_C3_witness :
    winSetup.game_state = 0 ∧
    winSetup.board 0 0 = 0 ∧
    get_next_row winSetup.board 0 = some 2 ∧
    is_winning_move (setCell winSetup.board 2 0 (ident winSetup.current_player))
      (ident winSetup.current_player) = true ∧
    make_move winSetup (((0 : Fin 7)).val : Int) =
      ({ winSetup with
          board := setCell winSetup.board 2 0 (ident winSetup.current_player)
          num_of_moves := winSetup.num_of_moves + 1
          wins1 := if winSetup.current_player = PlayerId.one then winSetup.wins1 + 1
                   else winSetup.wins1
          wins2 := if winSetup.current_player = PlayerId.two then winSetup.wins2 + 1
                   else winSetup.wins2
          game_state := 1 },
        MoveOutcome.playerWin (ident winSetup.current_player)) :=
  ⟨rfl, rfl, by decide, by decide,
    (claim_C3 winSetup 0 2 rfl rfl (by decide)).1 (by decide)⟩

/-- C4: the win scan returns true exactly when the board holds four
consecutive cells of the player along one of the four directions with the
source's exact ranges, and false otherwise. -/
theorem claim_C4 (b : Board) (pid : Nat) :
    is_winning_move b pid = true ↔
      horizontalWin b pid ∨ verticalWin b pid ∨ diagUpWin b pid ∨ diagDownWin b pid :=
  win_char b pid

/-- C5: on an in-progress game, a column in [0,7) whose top cell is occupied
makes make_move raise InvalidMoveError carrying that column, and the whole
session state is returned unchanged. -/
theorem claim_C5 (s : Game) (c : Fin 7)
    (h0 : s.game_state = 0) (hfull : s.board 0 c ≠ 0) :
    make_move s (c.val : Int) = (s, MoveOutcome.invalidMove (c.val : Int)) :=
  make_move_full s _ c h0 (npIndex7_ofFin c) hfull

/-- Position with column 0 completely full (alternating tokens), in
progress, player 1 to move. -/
def fullColGame : Game :=
  { board := setCell (setCell (setCell (setCell (setCell (setCell
        emptyBoard 5 0 1) 4 0 2) 3 0 1) 2 0 2) 1 0 1) 0 0 2
    num_of_moves := 6
    game_state := 0
    wins1 := 0
    wins2 := 0
    current_player := PlayerId.one }

/-- C5 witness: with column 0 full, the 7th drop into column 0 is rejected
with InvalidMove 0 and the state is unchanged. -/
theorem claim_C5_witness :
    fullColGame.game_state = 0 ∧
    fullColGame.board 0 0 ≠ 0 ∧
    make_move fullColGame (((0 : Fin 7)).val : Int)
      = (fullColGame, MoveOutcome.invalidMove (((0 : Fin 7)).val : Int)) :=
  ⟨rfl, by decide, claim_C5 fullColGame 0 rfl (by decide)⟩

/-- C6: in every session state reachable from construction through
make_move, rematch and clear_board, the move counter equals the number of
non-empty board cells, and therefore never exceeds 42 = 6*7. -/
theorem claim_C6 (s : Game) (h : Reachable s) :
    s.num_of_moves = countTokens s.board ∧ s.num_of_moves ≤ 42 := by
  have key : s.num_of_moves = countTokens s.board := by
    induction h with
    | init starter =>
      show (0 : Nat) = countTokens emptyBoard
      rw [countTokens_empty]
    | move s column hs ih => exact moves_eq_count_step s column ih
    | rematch_step s starter hs ih =>
      show (0 : Nat) = countTokens emptyBoard
      rw [countTokens_empty]
    | clear_step s hs ih =>
      show (0 : Nat) = countTokens emptyBoard
      rw [countTokens_empty]
  refine ⟨key, ?_⟩
  rw [key]
  exact countTokens_le s.board

/-- C6 witness: the invariant holds on the reachable state after one move
from a fresh game. -/
theorem claim_C6_witness :
    (make_move (initGame PlayerId.one) 3).1.num_of_moves
      = countTokens (make_move (initGame PlayerId.one) 3).1.board ∧
    (make_move (initGame PlayerId.one) 3).1.num_of_moves ≤ 42 :=
  claim_C6 (make_move (initGame PlayerId.one) 3).1
    (Reachable.move (initGame PlayerId.one) 3 (Reachable.init PlayerId.one))

/-- C7: rematch clears every cell, zeroes the move counter, re-selects the
current player from the two players (the random draw is the starter
parameter), sets the state to InProgress, and leaves both win counters
exactly as they were. -/
theorem claim_C7 (s : Game) (starter : PlayerId) :
    rematch s starter =
      { board := emptyBoard, num_of_moves := 0, game_state := 0,
        wins1 := s.wins1, wins2 := s.wins2, current_player := starter } := rfl

/-- C8 counterexample: _clear_scores does not perform the rematch semantics
for every possible draw — starting from a game whose current player is
player 2, it cannot produce the state rematch would produce when the draw
picks player 1, because _clear_scores never re-selects the current player. -/
theorem claim_C8_counterexample :
    clear_scores (initGame PlayerId.two) ≠
      { rematch (initGame PlayerId.two) PlayerId.one with wins1 := 0, wins2 := 0 } := by
  intro h
  have h2 := congrArg Game.current_player h
  simp [clear_scores, clear_board, rematch, initGame] at h2

/-- C8 amended: _clear_scores clears the board, zeroes the move counter,
sets the state to InProgress and zeroes both win counters, but keeps the
current player unchanged instead of re-selecting a starting player. -/
theorem claim_C8_amended (s : Game) :
    clear_scores s =
      { board := emptyBoard, num_of_moves := 0, game_state := 0,
        wins1 := 0, wins2 := 0, current_player := s.current_player } := rfl

/-- C9: once the game is finished, make_move with any column is a silent
no-op that changes nothing; clear_board leaves the Finished flag in place,
and rematch is the transition that returns the state to InProgress. -/
theorem claim_C9 (s : Game) (column : Int) (starter : PlayerId)
    (h : s.game_state ≠ 0) :
    make_move s column = (s, MoveOutcome.silent) ∧
    (clear_board s).game_state = s.game_state ∧
    (rematch s starter).game_state = 0 :=
  ⟨make_move_finished s column h, rfl, rfl⟩

/-- A finished session used to witness the terminal-state behaviour. -/
def finishedGame : Game := { initGame PlayerId.one with game_state := 1 }

/-- C9 witness: on a finished game, a move into column 3 is a silent no-op,
clear_board keeps the game finished, and rematch restarts it. -/
theorem claim_C9_witness :
    finishedGame.game_state ≠ 0 ∧
    (make_move finishedGame 3 = (finishedGame, MoveOutcome.silent) ∧
      (clear_board finishedGame).game_state = finishedGame.game_state ∧
      (rematch finishedGame PlayerId.two).game_state = 0) :=
  ⟨by decide, claim_C9 finishedGame 3 PlayerId.two (by decide)⟩

/-- C10: the win scan reports the same result on a board and on its
horizontal mirror, for every board and every player identifier. -/
theorem claim_C10 (b : Board) (pid : Nat) :
    is_winning_move (mirrorBoard b) pid = is_winning_move b pid := by
  cases hb : is_winning_move b pid with
  | true => exact is_winning_move_mirror_mono b pid hb
  | false =>
    cases hm : is_winning_move (mirrorBoard b) pid with
    | false => rfl
    | true =>
      have h2 := is_winning_move_mirror_mono (mirrorBoard b) pid hm
      rw [mirror_mirror] at h2
      rw [hb] at h2
      exact h2.symm
